import Mathlib

/-!
Verification of the `working_time` app's derivation logic.

Shallow embedding of the two source modules

* `working_time/working_time/doctype/working_time/working_time.py`
* `working_time/working_time/doctype/freelancer_time/freelancer_time.py`

Wall-clock times are modelled as seconds (`ℕ`); an unset field is `none`.
Python float arithmetic on the constants involved is exact (in particular
the double computation `3.25 * 1.15 * 60 * 60` yields exactly `13455.0`),
so the numeric layer is modelled over `ℚ`/`ℤ`.  External collaborators
(the document store, rate lookups, the Jira client) are modelled as plain
data: a database is a list of records, and fields obtained from external
lookups that no claim mentions (rates, customer, description) are elided
from the timesheet record.
-/

namespace WorkingTimeApp

/-- `HALF_DAY = 3.25` (module-level constant of `working_time.py`). -/
def HALF_DAY : ℚ := 13 / 4

/-- `OVERTIME_FACTOR = 1.15`. -/
def OVERTIME_FACTOR : ℚ := 23 / 20

/-- `MAX_HALF_DAY = HALF_DAY * OVERTIME_FACTOR * 60 * 60`.  The Python
float product is exactly `13455.0`, so the rational model is exact. -/
def MAX_HALF_DAY : ℚ := HALF_DAY * OVERTIME_FACTOR * 60 * 60

/-- `FIVE_MINUTES = 5 * 60`. -/
def FIVE_MINUTES : ℚ := 5 * 60

/-- `ONE_HOUR = 60 * 60`. -/
def ONE_HOUR : ℚ := 60 * 60

/-- A row of the `time_logs` child table of a WorkingTime document.
`from_time`/`to_time` are wall-clock timestamps in seconds (`none` when the
field is unset), `duration` is in seconds (`time_diff_in_seconds` can be
negative), `billable` is the percentage parsed from the `"NN%"` string
(the code computes `float(log.billable[:-1])`). -/
structure TimeLog where
  from_time : Option ℕ
  to_time : Option ℕ
  duration : Option ℤ
  is_break : Bool
  project : Option String
  billable : ℚ
  deriving Repr, DecidableEq

/-- A WorkingTime document: parent fields plus the `time_logs` table. -/
structure WorkingTime where
  name : String
  employee : String
  date : ℕ
  time_logs : List TimeLog
  break_time : ℤ
  working_time : ℤ
  deriving Repr, DecidableEq

/-- Python truthiness of the `duration` field: `None` and `0` are falsy. -/
def dtruthy (d : Option ℤ) : Bool :=
  match d with
  | none => false
  | some v => v != 0

/-- `remove_seconds`: for every log with a set `from_time`/`to_time`,
truncate it to whole-minute precision (`f"{t[:-2]}00"` forces the seconds
digits of the time string to `00`). -/
def remove_seconds (logs : List TimeLog) : List TimeLog :=
  logs.map fun log =>
    { log with
      from_time := log.from_time.map fun t => t / 60 * 60
      to_time := log.to_time.map fun t => t / 60 * 60 }

/-- `set_to_times`: `for i in range(0, len(time_logs) - 1):
time_logs[i].to_time = time_logs[i + 1].from_time`.  The loop never writes
a `from_time`, so sequential mutation coincides with this recursion. -/
def set_to_times : List TimeLog → List TimeLog
  | [] => []
  | [log] => [log]
  | log :: next :: rest =>
      { log with to_time := next.from_time } :: set_to_times (next :: rest)

/-- Body of the first `if` of `set_durations`: when both times are set the
duration is recomputed as `time_diff_in_seconds(to_time, from_time)`;
otherwise the log (and any pre-existing duration) is untouched. -/
def set_duration_log (log : TimeLog) : TimeLog :=
  match log.from_time, log.to_time with
  | some f, some t => { log with duration := some ((t : ℤ) - (f : ℤ)) }
  | _, _ => log

/-- Contribution of one (already updated) log to the running sums of
`set_durations`: counted only when `if log.duration:` is truthy. -/
def durationContribution (log : TimeLog) : ℤ :=
  match log.duration with
  | some d => if d ≠ 0 then d else 0
  | none => 0

/-- `self.break_time` as accumulated by `set_durations`. -/
def breakTimeOf (logs : List TimeLog) : ℤ :=
  (logs.map fun log => if log.is_break then durationContribution log else 0).sum

/-- `self.working_time` as accumulated by `set_durations`. -/
def workingTimeOf (logs : List TimeLog) : ℤ :=
  (logs.map fun log => if log.is_break then 0 else durationContribution log).sum

/-- `set_durations` applied to a WorkingTime document: recompute each
log's duration where possible, then recompute the two sums from the
updated logs (the loop resets both sums to `0` first). -/
def set_durations (wt : WorkingTime) : WorkingTime :=
  let logs := wt.time_logs.map set_duration_log
  { wt with
    time_logs := logs
    break_time := breakTimeOf logs
    working_time := workingTimeOf logs }

/-- `before_validate`: `remove_seconds`, then `set_to_times`, then
`set_durations`, in this order. -/
def before_validate (wt : WorkingTime) : WorkingTime :=
  set_durations
    { wt with time_logs := set_to_times (remove_seconds wt.time_logs) }

/-- `validate`: `frappe.throw(_("Time logs must be continuous"))` as soon
as some log has a truthy duration that is `< 0`. -/
def validate (wt : WorkingTime) : Except String Unit :=
  if wt.time_logs.any fun log => dtruthy log.duration && log.duration.getD 0 < 0 then
    .error "Time logs must be continuous"
  else
    .ok ()

/-- An Attendance record (external entity created by `create_attendance`). -/
structure Attendance where
  employee : String
  status : String
  attendance_date : ℕ
  working_time : String
  deriving Repr, DecidableEq

/-- The status chosen for a fresh Attendance:
`"Present" if self.working_time > MAX_HALF_DAY else "Half Day"`. -/
def attendance_status (working_time : ℤ) : String :=
  if (working_time : ℚ) > MAX_HALF_DAY then "Present" else "Half Day"

/-- `frappe.db.exists("Attendance", {"employee": ..., "attendance_date": ...})`
over a list-of-records database. -/
def attendance_exists (db : List Attendance) (employee : String) (date : ℕ) : Bool :=
  db.any fun a => a.employee == employee && a.attendance_date == date

/-- `create_attendance`: create (save and submit) a new Attendance for
(employee, date) unless one already exists. -/
def create_attendance (db : List Attendance) (wt : WorkingTime) : List Attendance :=
  if attendance_exists db wt.employee wt.date then
    db
  else
    db ++ [{ employee := wt.employee
             status := attendance_status wt.working_time
             attendance_date := wt.date
             working_time := wt.name }]

/-- `hours = math.ceil(log.duration / FIVE_MINUTES) * FIVE_MINUTES / ONE_HOUR`. -/
def hours (duration : ℤ) : ℚ :=
  (⌈(duration : ℚ) / FIVE_MINUTES⌉ : ℚ) * FIVE_MINUTES / ONE_HOUR

/-- `billing_hours = math.ceil(log.duration * float(log.billable[:-1]) / 100
/ FIVE_MINUTES) * FIVE_MINUTES / ONE_HOUR` (WorkingTime variant). -/
def billing_hours (duration : ℤ) (pct : ℚ) : ℚ :=
  (⌈(duration : ℚ) * pct / 100 / FIVE_MINUTES⌉ : ℚ) * FIVE_MINUTES / ONE_HOUR

/-- Docstatus of a stored document (`frappe.model.docstatus`). -/
inductive DocStatus where
  | draft
  | submitted
  | cancelled
  deriving Repr, DecidableEq

/-- A Timesheet record as built by either `create_timesheets`.  Fields
filled from external lookups that no claim mentions (costing/billing
rates, customer, description, Jira URL) are elided; `from_time` is the
value placed in the single `time_logs` row.  A WorkingTime-created sheet
carries `working_time := some name`, a FreelancerTime-created one
carries `freelancer_time := some name`; `insert()` leaves it in draft. -/
structure Timesheet where
  project : String
  hours : ℚ
  billing_hours : ℚ
  from_time : ℕ
  working_time : Option String
  freelancer_time : Option String
  docstatus : DocStatus
  deriving Repr, DecidableEq

/-- The Timesheet built by `WorkingTime.create_timesheets` for one
qualifying log: `hours` from the 5-minute rounding, `billing_hours` from
the billable percentage, and `"from_time": self.date` (the parent day's
date). -/
def wt_timesheet (wt : WorkingTime) (project : String) (duration : ℤ) (pct : ℚ) :
    Timesheet :=
  { project := project
    hours := hours duration
    billing_hours := billing_hours duration pct
    from_time := wt.date
    working_time := some wt.name
    freelancer_time := none
    docstatus := .draft }

/-- `WorkingTime.create_timesheets`: one Timesheet per log passing
`if log.duration and log.project` (truthy duration and a set project). -/
def create_timesheets (wt : WorkingTime) : List Timesheet :=
  wt.time_logs.filterMap fun log =>
    match log.duration, log.project with
    | some d, some project =>
        if d ≠ 0 then some (wt_timesheet wt project d log.billable) else none
    | _, _ => none

/-- A row of the `time_logs` child table of a FreelancerTime document.
The code reads `log.date`, `log.duration`, `log.project`, `log.issue_key`
and `log.note` from it.  `from_time` is *modelled from the spec*: the
child doctype schema is not under `src/` and the spec's §3 TimeLog data
model lists a `from_time` field; the code here never reads it. -/
structure FreelancerLog where
  date : ℕ
  from_time : Option ℕ
  duration : Option ℤ
  project : Option String
  deriving Repr, DecidableEq

/-- A FreelancerTime document. -/
structure FreelancerTime where
  name : String
  owner : String
  time_logs : List FreelancerLog
  deriving Repr, DecidableEq

/-- The Timesheet built by `FreelancerTime.create_timesheets` for one
qualifying log: `billing_hours = hours` (one shared expression in the
code) and `"from_time": log.date` (the log's own date). -/
def fl_timesheet (ft : FreelancerTime) (log : FreelancerLog) (duration : ℤ) :
    Timesheet :=
  { project := log.project.getD ""
    hours := hours duration
    billing_hours := hours duration
    from_time := log.date
    working_time := none
    freelancer_time := some ft.name
    docstatus := .draft }

/-- `FreelancerTime.create_timesheets`: one Timesheet per log passing
`if log.duration and log.project`.  There is no validation hook on this
doctype, so a negative (truthy) duration also qualifies. -/
def fl_create_timesheets (ft : FreelancerTime) : List Timesheet :=
  ft.time_logs.filterMap fun log =>
    match log.duration, log.project with
    | some d, some _ =>
        if d ≠ 0 then some (fl_timesheet ft log d) else none
    | _, _ => none

/-- `FreelancerTime.delete_draft_timesheets`: delete every Timesheet whose
`freelancer_time` link is this record's name and whose docstatus is
draft (`frappe.get_list` with those filters, then `frappe.delete_doc`). -/
def delete_draft_timesheets (db : List Timesheet) (ft : FreelancerTime) :
    List Timesheet :=
  db.filter fun ts =>
    !(ts.freelancer_time == some ft.name && ts.docstatus == DocStatus.draft)

/-- The document-store state the two submit hooks touch. -/
structure DB where
  attendances : List Attendance
  timesheets : List Timesheet
  deriving Repr, DecidableEq

/-- The framework's submit pass on a WorkingTime document:
`before_validate`, then `validate` (a throw aborts the transaction, so an
error leaves the database untouched), then `on_submit`, which runs
`create_attendance` and `create_timesheets`. -/
def submit_working_time (db : DB) (wt : WorkingTime) : Except String DB :=
  match validate (before_validate wt) with
  | .error e => .error e
  | .ok () =>
      .ok { attendances := create_attendance db.attendances (before_validate wt)
            timesheets := db.timesheets ++ create_timesheets (before_validate wt) }

/-- The framework's submit pass on a FreelancerTime document: the class
defines no `validate`, so `on_submit` always runs `create_timesheets`. -/
def submit_freelancer_time (db : DB) (ft : FreelancerTime) : DB :=
  { db with timesheets := db.timesheets ++ fl_create_timesheets ft }

/-- `FreelancerTime.on_cancel` runs `delete_draft_timesheets`. -/
def cancel_freelancer_time (db : DB) (ft : FreelancerTime) : DB :=
  { db with timesheets := delete_draft_timesheets db.timesheets ft }

/-- The Timesheet `WorkingTime.create_timesheets` builds from a
qualifying log, with the guard's fields read back off the log. -/
def mk_wt_timesheet (wt : WorkingTime) (log : TimeLog) : Timesheet :=
  wt_timesheet wt (log.project.getD "") (log.duration.getD 0) log.billable

/-- The Timesheet `FreelancerTime.create_timesheets` builds from a
qualifying log. -/
def mk_fl_timesheet (ft : FreelancerTime) (log : FreelancerLog) : Timesheet :=
  fl_timesheet ft log (log.duration.getD 0)

/-! Concrete sample documents used to instantiate the theorems below. -/

/-- A WorkingTime day with no logs (employee `"E"`, date `5`). -/
def sampleWT : WorkingTime :=
  { name := "WT-1", employee := "E", date := 5, time_logs := [],
    break_time := 0, working_time := 0 }

/-- An attendance database already holding a record for `sampleWT`'s
(employee, date). -/
def sampleAttDB : List Attendance :=
  [{ employee := "E", status := "Present", attendance_date := 5,
     working_time := "WT-0" }]

/-- A WorkingTime with out-of-order punches: chaining gives the first log
`to_time = 0 < from_time = 600`, hence duration `-600`. -/
def sampleWTneg : WorkingTime :=
  { name := "WT-2", employee := "E", date := 5,
    time_logs :=
      [{ from_time := some 600, to_time := none, duration := none,
         is_break := false, project := none, billable := 100 },
       { from_time := some 0, to_time := some 3600, duration := none,
         is_break := false, project := none, billable := 100 }],
    break_time := 0, working_time := 0 }

/-- The spec's §8 chaining example: `from_time`s 09:00, 09:05:30, 12:00
(in seconds: 32400, 32730, 43200). -/
def sampleWTchain : WorkingTime :=
  { name := "WT-3", employee := "E", date := 5,
    time_logs :=
      [{ from_time := some 32400, to_time := none, duration := none,
         is_break := false, project := none, billable := 100 },
       { from_time := some 32730, to_time := none, duration := none,
         is_break := false, project := none, billable := 100 },
       { from_time := some 43200, to_time := some 61200, duration := none,
         is_break := false, project := none, billable := 100 }],
    break_time := 0, working_time := 0 }

/-- The first log of `sampleWTchain` after normalization. -/
def sampleChainLog0 : TimeLog :=
  { from_time := some 32400, to_time := some 32700, duration := some 300,
    is_break := false, project := none, billable := 100 }

/-- The second log of `sampleWTchain` after normalization. -/
def sampleChainLog1 : TimeLog :=
  { from_time := some 32700, to_time := some 43200, duration := some 10500,
    is_break := false, project := none, billable := 100 }

/-- A WorkingTime whose second log has no `from_time`, so chaining unsets
the first log's `to_time` and its pre-existing duration `-5` is kept. -/
def sampleWTgap : WorkingTime :=
  { name := "WT-4", employee := "E", date := 5,
    time_logs :=
      [{ from_time := some 120, to_time := some 0, duration := some (-5),
         is_break := false, project := some "P", billable := 100 },
       { from_time := none, to_time := none, duration := none,
         is_break := false, project := none, billable := 100 }],
    break_time := 0, working_time := 0 }

/-- The first log of `sampleWTgap` after normalization. -/
def sampleGapLog0 : TimeLog :=
  { from_time := some 120, to_time := none, duration := some (-5),
    is_break := false, project := some "P", billable := 100 }

/-- A WorkingTime with one positive, project-tagged log. -/
def sampleWTgood : WorkingTime :=
  { name := "WT-5", employee := "E", date := 5,
    time_logs :=
      [{ from_time := some 0, to_time := some 600, duration := none,
         is_break := false, project := some "P", billable := 100 }],
    break_time := 0, working_time := 0 }

/-- A FreelancerTime with one log whose duration is negative (`-300`)
yet nonzero, with a project set. -/
def sampleFTneg : FreelancerTime :=
  { name := "FT-1", owner := "F",
    time_logs :=
      [{ date := 0, from_time := none, duration := some (-300),
         project := some "P" }] }

/-- A freelancer log carrying both a `date` (777) and a spec-modelled
`from_time` (555) distinct from it. -/
def sampleFTlog : FreelancerLog :=
  { date := 777, from_time := some 555, duration := some 300,
    project := some "P" }

/-- A FreelancerTime holding `sampleFTlog`. -/
def sampleFT : FreelancerTime :=
  { name := "FT-2", owner := "F", time_logs := [sampleFTlog] }

/-- The database state after submitting `sampleWTgood` on an empty
database. -/
def sampleDBafter : DB :=
  { attendances := create_attendance [] (before_validate sampleWTgood)
    timesheets := [] ++ create_timesheets (before_validate sampleWTgood) }

/-- A timesheet database with one linked draft, one linked submitted and
one unlinked draft sheet, for the cancellation claims. -/
def sampleTSDB : List Timesheet :=
  [{ project := "P", hours := 1, billing_hours := 1, from_time := 0,
     working_time := none, freelancer_time := some "FT-2",
     docstatus := .draft },
   { project := "P", hours := 2, billing_hours := 2, from_time := 0,
     working_time := none, freelancer_time := some "FT-2",
     docstatus := .submitted },
   { project := "P", hours := 3, billing_hours := 3, from_time := 0,
     working_time := none, freelancer_time := some "FT-9",
     docstatus := .draft }]

/-- A timesheet database holding no draft linked to `sampleFT`. -/
def sampleTSDBnodraft : List Timesheet :=
  [{ project := "P", hours := 2, billing_hours := 2, from_time := 0,
     working_time := none, freelancer_time := some "FT-2",
     docstatus := .submitted },
   { project := "P", hours := 3, billing_hours := 3, from_time := 0,
     working_time := none, freelancer_time := some "FT-9",
     docstatus := .draft }]

/-- Number of Attendance records for an (employee, date) pair. -/
def attendance_count (db : List Attendance) (employee : String) (date : ℕ) : ℕ :=
  db.countP fun a => a.employee == employee && a.attendance_date == date

/-! Theorems settling the claims. -/

/-- C1: for every duration `d ≥ 0`, the billed hours figure
`hours d = ⌈d/300⌉ * 300 / 3600` is monotonically non-decreasing in `d`
and satisfies `hours d ≥ d/3600` (the rounding never under-bills);
`hours 0 = 0`, and every positive duration below 5 minutes rounds up to
5 minutes (`300/3600` hours). -/
theorem C1_hours_rounding (d e : ℤ) (hd : 0 ≤ d) :
    (d ≤ e → hours d ≤ hours e) ∧
    (d : ℚ) / 3600 ≤ hours d ∧
    hours 0 = 0 ∧
    (0 < d → d < 300 → hours d = 300 / 3600) := by
  refine ⟨fun hde => ?_, ?_, ?_, fun hpos hlt => ?_⟩
  · unfold hours FIVE_MINUTES ONE_HOUR
    have hceil : ⌈(d : ℚ) / (5 * 60)⌉ ≤ ⌈(e : ℚ) / (5 * 60)⌉ := by
      apply Int.ceil_le_ceil
      have : (d : ℚ) ≤ (e : ℚ) := by exact_mod_cast hde
      linarith
    have : ((⌈(d : ℚ) / (5 * 60)⌉ : ℤ) : ℚ) ≤ ((⌈(e : ℚ) / (5 * 60)⌉ : ℤ) : ℚ) := by
      exact_mod_cast hceil
    have h60 : (0:ℚ) < 60 * 60 := by norm_num
    rw [div_le_div_iff_of_pos_right h60]
    linarith
  · unfold hours FIVE_MINUTES ONE_HOUR
    have hle := Int.le_ceil ((d : ℚ) / (5 * 60))
    linarith
  · unfold hours FIVE_MINUTES ONE_HOUR
    norm_num
  · have hceil : ⌈(d : ℚ) / (5 * 60)⌉ = 1 := by
      rw [Int.ceil_eq_iff]
      have h0 : (0 : ℚ) < (d : ℚ) := by exact_mod_cast hpos
      have h300 : (d : ℚ) < 300 := by exact_mod_cast hlt
      constructor
      · push_cast
        linarith
      · push_cast
        linarith
    unfold hours FIVE_MINUTES ONE_HOUR
    rw [hceil]
    norm_num

/-- Closed instance discharging the hypotheses of `C1_hours_rounding`. -/
theorem C1_hours_rounding_witness :
    hours 7 ≤ hours 400 ∧
    ((7 : ℤ) : ℚ) / 3600 ≤ hours 7 ∧
    hours 0 = 0 ∧
    hours 7 = 300 / 3600 :=
  ⟨(C1_hours_rounding 7 400 (by norm_num)).1 (by norm_num),
   (C1_hours_rounding 7 400 (by norm_num)).2.1,
   (C1_hours_rounding 7 400 (by norm_num)).2.2.1,
   (C1_hours_rounding 7 400 (by norm_num)).2.2.2 (by norm_num) (by norm_num)⟩

/-- C2: for every duration `d ≥ 0` and billable percentage
`pct ≤ 100`, the WorkingTime billing computation satisfies
`billing_hours d pct ≤ hours d`, with equality at `pct = 100`; and in the
FreelancerTime variant every created Timesheet has
`billing_hours = hours`. -/
theorem C2_billing_scaling (d : ℤ) (pct : ℚ) (hd : 0 ≤ d) (hpct : pct ≤ 100) :
    billing_hours d pct ≤ hours d ∧
    billing_hours d 100 = hours d ∧
    ∀ (ft : FreelancerTime), ∀ ts ∈ fl_create_timesheets ft,
      ts.billing_hours = ts.hours := by
  refine ⟨?_, ?_, ?_⟩
  · unfold billing_hours hours FIVE_MINUTES ONE_HOUR
    have hdq : (0 : ℚ) ≤ (d : ℚ) := by exact_mod_cast hd
    have harg : (d : ℚ) * pct / 100 ≤ (d : ℚ) := by nlinarith
    have hceil : ⌈(d : ℚ) * pct / 100 / (5 * 60)⌉ ≤ ⌈(d : ℚ) / (5 * 60)⌉ := by
      apply Int.ceil_le_ceil
      linarith
    have : ((⌈(d : ℚ) * pct / 100 / (5 * 60)⌉ : ℤ) : ℚ) ≤
        ((⌈(d : ℚ) / (5 * 60)⌉ : ℤ) : ℚ) := by exact_mod_cast hceil
    rw [div_le_div_iff_of_pos_right (show (0:ℚ) < 60 * 60 by norm_num)]
    linarith
  · unfold billing_hours hours
    rw [show (d : ℚ) * 100 / 100 = (d : ℚ) by ring]
  · intro ft ts hts
    simp only [fl_create_timesheets, List.mem_filterMap] at hts
    obtain ⟨log, _, hlog⟩ := hts
    rcases hdur : log.duration with _ | dv <;>
      rcases hproj : log.project with _ | pv <;>
        simp [hdur, hproj] at hlog
    obtain ⟨-, hts⟩ := hlog
    subst hts
    rfl

/-- Closed instance discharging the hypotheses of `C2_billing_scaling`. -/
theorem C2_billing_scaling_witness :
    billing_hours 7 50 ≤ hours 7 ∧
    billing_hours 7 100 = hours 7 ∧
    (fl_timesheet sampleFT sampleFTlog 300).billing_hours =
      (fl_timesheet sampleFT sampleFTlog 300).hours :=
  ⟨(C2_billing_scaling 7 50 (by norm_num) (by norm_num)).1,
   (C2_billing_scaling 7 50 (by norm_num) (by norm_num)).2.1,
   (C2_billing_scaling 7 50 (by norm_num) (by norm_num)).2.2 sampleFT
     (fl_timesheet sampleFT sampleFTlog 300)
     (by
       have h : fl_create_timesheets sampleFT =
           [fl_timesheet sampleFT sampleFTlog 300] := rfl
       rw [h]
       exact List.mem_singleton.mpr rfl)⟩

/-- C3: on WorkingTime submit, when no Attendance exists for the
(employee, date) pair, the created Attendance has status `"Present"`
exactly when `working_time > MAX_HALF_DAY`, and `"Half Day"` otherwise;
`MAX_HALF_DAY = 3.25 * 1.15 * 3600 = 13455` exactly, `13455` seconds
yields `"Half Day"` and `13456` seconds yields `"Present"`. -/
theorem C3_attendance_threshold (db : List Attendance) (wt : WorkingTime)
    (habs : attendance_exists db wt.employee wt.date = false) :
    create_attendance db wt =
      db ++ [{ employee := wt.employee
               status := attendance_status wt.working_time
               attendance_date := wt.date
               working_time := wt.name }] ∧
    (attendance_status wt.working_time = "Present" ↔
      (wt.working_time : ℚ) > MAX_HALF_DAY) ∧
    MAX_HALF_DAY = 13455 ∧
    attendance_status 13455 = "Half Day" ∧
    attendance_status 13456 = "Present" := by
  refine ⟨by simp [create_attendance, habs], ?_, ?_, ?_, ?_⟩
  · unfold attendance_status
    split
    case isTrue h => simpa using h
    case isFalse h =>
      constructor
      · intro hcontra
        exact absurd hcontra (by decide)
      · intro hgt
        exact absurd hgt h
  · norm_num [MAX_HALF_DAY, HALF_DAY, OVERTIME_FACTOR]
  · unfold attendance_status MAX_HALF_DAY HALF_DAY OVERTIME_FACTOR
    norm_num
  · unfold attendance_status MAX_HALF_DAY HALF_DAY OVERTIME_FACTOR
    norm_num

/-- Closed instance discharging the hypothesis of
`C3_attendance_threshold` on an empty attendance database. -/
theorem C3_attendance_threshold_witness :
    create_attendance [] sampleWT =
      [] ++ [{ employee := sampleWT.employee
               status := attendance_status sampleWT.working_time
               attendance_date := sampleWT.date
               working_time := sampleWT.name }] ∧
    (attendance_status sampleWT.working_time = "Present" ↔
      (sampleWT.working_time : ℚ) > MAX_HALF_DAY) ∧
    MAX_HALF_DAY = 13455 ∧
    attendance_status 13455 = "Half Day" ∧
    attendance_status 13456 = "Present" :=
  C3_attendance_threshold [] sampleWT rfl

/-- Helper: `validate` rejects with the continuity message exactly when
some log carries a negative duration. -/
theorem validate_error_iff (wt : WorkingTime) :
    validate wt = .error "Time logs must be continuous" ↔
      ∃ log ∈ wt.time_logs, ∃ d, log.duration = some d ∧ d < 0 := by
  unfold validate
  split
  case isTrue h =>
    simp only [List.any_eq_true, Bool.and_eq_true, decide_eq_true_eq] at h
    obtain ⟨log, hmem, htruthy, hneg⟩ := h
    refine ⟨fun _ => ⟨log, hmem, ?_⟩, fun _ => rfl⟩
    rcases hd : log.duration with _ | v
    · rw [hd] at htruthy
      simp [dtruthy] at htruthy
    · rw [hd, Option.getD_some] at hneg
      exact ⟨v, rfl, hneg⟩
  case isFalse h =>
    simp only [List.any_eq_true, Bool.and_eq_true, decide_eq_true_eq,
      not_exists] at h
    constructor
    · intro habs
      cases habs
    · rintro ⟨log, hmem, d, hd, hneg⟩
      exfalso
      push_neg at h
      have := h log hmem
      rw [hd] at this
      simp only [dtruthy, Option.getD_some] at this
      have hne : d ≠ 0 := by omega
      have h2 := this (by simpa using hne)
      omega

/-- C4: WorkingTime validation raises the user-facing rejection
`"Time logs must be continuous"` iff some time log has a duration
strictly below zero; when it rejects, the submit pass returns that error
and produces no new database state. -/
theorem C4_validation_rejects (wt : WorkingTime) (db : DB) :
    (validate wt = .error "Time logs must be continuous" ↔
      ∃ log ∈ wt.time_logs, ∃ d, log.duration = some d ∧ d < 0) ∧
    ∀ e, validate (before_validate wt) = .error e →
      submit_working_time db wt = .error e := by
  refine ⟨validate_error_iff wt, fun e herr => ?_⟩
  unfold submit_working_time
  rw [herr]

/-- Closed instance discharging the hypotheses of
`C4_validation_rejects`: out-of-order punches abort the submit pass. -/
theorem C4_validation_rejects_witness :
    submit_working_time { attendances := [], timesheets := [] } sampleWTneg =
      .error "Time logs must be continuous" :=
  (C4_validation_rejects sampleWTneg
    { attendances := [], timesheets := [] }).2
    "Time logs must be continuous" rfl

/-- Helper: `set_duration_log` never changes `from_time`. -/
theorem set_duration_log_from_time (log : TimeLog) :
    (set_duration_log log).from_time = log.from_time := by
  obtain ⟨ff, tt, d, b, p, pct⟩ := log
  rcases ff with _ | f <;> rcases tt with _ | t <;> rfl

/-- Helper: `set_duration_log` never changes `to_time`. -/
theorem set_duration_log_to_time (log : TimeLog) :
    (set_duration_log log).to_time = log.to_time := by
  obtain ⟨ff, tt, d, b, p, pct⟩ := log
  rcases ff with _ | f <;> rcases tt with _ | t <;> rfl

/-- Helper: a log missing one of its times is left whole by
`set_duration_log` (its pre-existing duration is kept as-is). -/
theorem set_duration_log_missing (log : TimeLog)
    (h : log.from_time = none ∨ log.to_time = none) :
    set_duration_log log = log := by
  obtain ⟨ff, tt, d, b, p, pct⟩ := log
  rcases ff with _ | f <;> rcases tt with _ | t <;> first | rfl | simp_all

/-- Helper: `set_to_times` preserves the number of logs. -/
theorem set_to_times_length : ∀ logs : List TimeLog,
    (set_to_times logs).length = logs.length
  | [] => rfl
  | [_] => rfl
  | _ :: next :: rest => by
      simp [set_to_times, set_to_times_length (next :: rest)]

/-- Helper: out-of-range indices stay out of range under `set_to_times`. -/
theorem set_to_times_getElem_none (logs : List TimeLog) (i : ℕ)
    (h : logs[i]? = none) : (set_to_times logs)[i]? = none := by
  rw [List.getElem?_eq_none_iff] at h ⊢
  rwa [set_to_times_length]

/-- Helper: a non-final log gets its `to_time` overwritten with the next
log's `from_time` by `set_to_times`. -/
theorem set_to_times_getElem_mid : ∀ (logs : List TimeLog) (i : ℕ)
    (a b : TimeLog), logs[i]? = some a → logs[i + 1]? = some b →
    (set_to_times logs)[i]? = some { a with to_time := b.from_time }
  | [], i, a, b, ha, _ => by simp at ha
  | [l], i, a, b, ha, hb => by
      rcases i with _ | j
      · simp at hb
      · simp at ha
  | l :: next :: rest, 0, a, b, ha, hb => by
      have ha' : some l = some a := by simpa using ha
      have hb' : some next = some b := by simpa using hb
      cases ha'
      cases hb'
      simp [set_to_times]
  | l :: next :: rest, j + 1, a, b, ha, hb => by
      have ih := set_to_times_getElem_mid (next :: rest) j a b
        (by simpa using ha) (by simpa using hb)
      simpa [set_to_times] using ih

/-- Helper: the final log is left unchanged by `set_to_times`. -/
theorem set_to_times_getElem_last : ∀ (logs : List TimeLog) (i : ℕ)
    (a : TimeLog), logs[i]? = some a → logs[i + 1]? = none →
    (set_to_times logs)[i]? = some a
  | [], i, a, ha, _ => by simp at ha
  | [l], i, a, ha, hb => by
      rcases i with _ | j
      · have ha' : some l = some a := by simpa using ha
        cases ha'
        rfl
      · simp at ha
  | l :: next :: rest, 0, a, ha, hb => by
      simp at hb
  | l :: next :: rest, j + 1, a, ha, hb => by
      have ih := set_to_times_getElem_last (next :: rest) j a
        (by simpa using ha) (by simpa using hb)
      simpa [set_to_times] using ih

/-- Helper: `set_to_times` preserves every `from_time`. -/
theorem set_to_times_from_time (logs : List TimeLog) (i : ℕ) :
    ((set_to_times logs)[i]?).map TimeLog.from_time =
      (logs[i]?).map TimeLog.from_time := by
  rcases ha : logs[i]? with _ | a
  · rw [set_to_times_getElem_none logs i ha]
  · rcases hb : logs[i + 1]? with _ | b
    · rw [set_to_times_getElem_last logs i a ha hb]
    · rw [set_to_times_getElem_mid logs i a b ha hb]
      rfl

/-- Helper: the logs produced by `before_validate`, unfolded. -/
theorem before_validate_time_logs (wt : WorkingTime) :
    (before_validate wt).time_logs =
      (set_to_times (remove_seconds wt.time_logs)).map set_duration_log := rfl

/-- Helper: both times of every `remove_seconds` output are whole-minute
values. -/
theorem remove_seconds_trunc (logs : List TimeLog) (i : ℕ) (r : TimeLog)
    (h : (remove_seconds logs)[i]? = some r) :
    (∀ t, r.from_time = some t → t % 60 = 0) ∧
    ∀ t, r.to_time = some t → t % 60 = 0 := by
  unfold remove_seconds at h
  rw [List.getElem?_map] at h
  rcases ho : logs[i]? with _ | orig
  · rw [ho] at h
    cases h
  · rw [ho] at h
    simp only [Option.map_some'] at h
    cases h
    constructor
    · intro t ht
      rcases hf : orig.from_time with _ | u
      · rw [hf] at ht
        cases ht
      · rw [hf] at ht
        simp only [Option.map_some'] at ht
        cases ht
        omega
    · intro t ht
      rcases hf : orig.to_time with _ | u
      · rw [hf] at ht
        cases ht
      · rw [hf] at ht
        simp only [Option.map_some'] at ht
        cases ht
        omega

/-- Helper: elements of a `set_duration_log` image, recovered. -/
theorem map_set_duration_log_getElem (L : List TimeLog) (i : ℕ) (a : TimeLog)
    (h : (L.map set_duration_log)[i]? = some a) :
    ∃ a₀, L[i]? = some a₀ ∧ a = set_duration_log a₀ := by
  rw [List.getElem?_map] at h
  rcases hL : L[i]? with _ | a₀
  · rw [hL] at h
    cases h
  · rw [hL] at h
    simp only [Option.map_some'] at h
    cases h
    exact ⟨a₀, rfl, rfl⟩

/-- C5: normalization runs remove-seconds, then chain-to-times, then
compute-durations; afterwards each log except the last has `to_time`
equal to the next log's `from_time`, every time present is truncated to
whole minutes, only the final log's `to_time` is taken as given (its
truncated original value), and every log with both times set has
`duration = to_time - from_time` in seconds. -/
theorem C5_normalization (wt : WorkingTime) :
    before_validate wt =
      set_durations
        { wt with time_logs := set_to_times (remove_seconds wt.time_logs) } ∧
    (∀ i a b, (before_validate wt).time_logs[i]? = some a →
      (before_validate wt).time_logs[i + 1]? = some b →
      a.to_time = b.from_time) ∧
    (∀ log ∈ (before_validate wt).time_logs,
      (∀ t, log.from_time = some t → t % 60 = 0) ∧
      ∀ t, log.to_time = some t → t % 60 = 0) ∧
    (∀ i b, i + 1 = wt.time_logs.length → wt.time_logs[i]? = some b →
      ∃ a, (before_validate wt).time_logs[i]? = some a ∧
        a.to_time = b.to_time.map fun t => t / 60 * 60) ∧
    (∀ log ∈ (before_validate wt).time_logs, ∀ f t,
      log.from_time = some f → log.to_time = some t →
      log.duration = some ((t : ℤ) - (f : ℤ))) := by
  refine ⟨rfl, ?_, ?_, ?_, ?_⟩
  · -- chaining
    intro i a b ha hb
    rw [before_validate_time_logs] at ha hb
    obtain ⟨a₀, ha₀, haeq⟩ := map_set_duration_log_getElem _ i a ha
    obtain ⟨b₀, hb₀, hbeq⟩ := map_set_duration_log_getElem _ (i + 1) b hb
    rcases hr1 : (remove_seconds wt.time_logs)[i + 1]? with _ | r1
    · rw [set_to_times_getElem_none _ _ hr1] at hb₀
      cases hb₀
    · rcases hr0 : (remove_seconds wt.time_logs)[i]? with _ | r0
      · exfalso
        rw [List.getElem?_eq_none_iff] at hr0
        have : (remove_seconds wt.time_logs)[i + 1]? = none := by
          rw [List.getElem?_eq_none_iff]
          omega
        rw [this] at hr1
        cases hr1
      · have hmid := set_to_times_getElem_mid _ i r0 r1 hr0 hr1
        rw [hmid] at ha₀
        have hfrom := set_to_times_from_time (remove_seconds wt.time_logs) (i + 1)
        rw [hb₀, hr1] at hfrom
        simp only [Option.map_some'] at hfrom
        cases ha₀
        have hb₀from : b₀.from_time = r1.from_time := by
          injection hfrom
        rw [haeq, hbeq, set_duration_log_to_time, set_duration_log_from_time,
          hb₀from]
  · -- whole-minute truncation
    intro log hmem
    rw [before_validate_time_logs] at hmem
    obtain ⟨log₀, hmem₀, hlog⟩ := List.mem_map.mp hmem
    obtain ⟨i, hi⟩ := List.mem_iff_getElem?.mp hmem₀
    subst hlog
    rw [set_duration_log_from_time, set_duration_log_to_time]
    rcases hr0 : (remove_seconds wt.time_logs)[i]? with _ | r0
    · rw [set_to_times_getElem_none _ _ hr0] at hi
      cases hi
    · have htr0 := remove_seconds_trunc wt.time_logs i r0 hr0
      constructor
      · intro t ht
        have hfrom := set_to_times_from_time (remove_seconds wt.time_logs) i
        rw [hi, hr0] at hfrom
        simp only [Option.map_some'] at hfrom
        have : log₀.from_time = r0.from_time := by injection hfrom
        rw [this] at ht
        exact htr0.1 t ht
      · intro t ht
        rcases hr1 : (remove_seconds wt.time_logs)[i + 1]? with _ | r1
        · have hlast := set_to_times_getElem_last _ i r0 hr0 hr1
          rw [hlast] at hi
          cases hi
          exact htr0.2 t ht
        · have hmid := set_to_times_getElem_mid _ i r0 r1 hr0 hr1
          rw [hmid] at hi
          cases hi
          have htr1 := remove_seconds_trunc wt.time_logs (i + 1) r1 hr1
          exact htr1.1 t ht
  · -- the final log's to_time is its truncated original value
    intro i b hlen hb
    rw [before_validate_time_logs]
    have hr0 : (remove_seconds wt.time_logs)[i]? =
        some { b with
          from_time := b.from_time.map fun t => t / 60 * 60
          to_time := b.to_time.map fun t => t / 60 * 60 } := by
      unfold remove_seconds
      rw [List.getElem?_map, hb]
      rfl
    have hr1 : (remove_seconds wt.time_logs)[i + 1]? = none := by
      rw [List.getElem?_eq_none_iff]
      unfold remove_seconds
      rw [List.length_map]
      omega
    have hlast := set_to_times_getElem_last _ i _ hr0 hr1
    refine ⟨set_duration_log
        { b with
          from_time := b.from_time.map fun t => t / 60 * 60
          to_time := b.to_time.map fun t => t / 60 * 60 }, ?_, ?_⟩
    · rw [List.getElem?_map, hlast]
      rfl
    · rw [set_duration_log_to_time]
  · -- computed durations
    intro log hmem f t hf ht
    rw [before_validate_time_logs] at hmem
    obtain ⟨log₀, hmem₀, hlog⟩ := List.mem_map.mp hmem
    subst hlog
    obtain ⟨f₀, t₀, d₀, br, pr, pc⟩ := log₀
    rcases f₀ with _ | u <;> rcases t₀ with _ | v <;>
      simp only [set_duration_log] at hf ht ⊢
    · cases hf
    · cases hf
    · cases ht
    · cases hf
      cases ht
      rfl

/-- Closed instance discharging the hypotheses of `C5_normalization` on
the spec's chaining example (09:00, 09:05:30, 12:00): after
normalization the first log ends where the second begins, at the
truncated 09:05. -/
theorem C5_normalization_witness :
    sampleChainLog0.to_time = sampleChainLog1.from_time :=
  (C5_normalization sampleWTchain).2.1 0 sampleChainLog0 sampleChainLog1
    (by decide) (by decide)

/-- C9: when an Attendance already exists for the employee and date,
submitting creates no new Attendance; and `create_attendance` preserves
the at-most-one-per-(employee, date) invariant. -/
theorem C9_attendance_unique (db : List Attendance) (wt : WorkingTime) :
    (attendance_exists db wt.employee wt.date = true →
      create_attendance db wt = db) ∧
    ∀ e d, attendance_count db e d ≤ 1 →
      attendance_count (create_attendance db wt) e d ≤ 1 := by
  constructor
  · intro hex
    simp [create_attendance, hex]
  · intro e d hle
    unfold create_attendance
    split
    case isTrue h => exact hle
    case isFalse h =>
      unfold attendance_count at hle ⊢
      rw [List.countP_append]
      by_cases hmatch : wt.employee = e ∧ wt.date = d
      · obtain ⟨he, hd2⟩ := hmatch
        subst he
        subst hd2
        have hzero : db.countP
            (fun a => a.employee == wt.employee &&
              a.attendance_date == wt.date) = 0 := by
          rw [List.countP_eq_zero]
          intro a ha hp
          apply h
          unfold attendance_exists
          rw [List.any_eq_true]
          exact ⟨a, ha, hp⟩
        rw [hzero, List.countP_cons, List.countP_nil]
        split <;> omega
      · have hone : List.countP
            (fun a : Attendance => a.employee == e && a.attendance_date == d)
            [{ employee := wt.employee
               status := attendance_status wt.working_time
               attendance_date := wt.date
               working_time := wt.name }] = 0 := by
          rw [List.countP_eq_zero]
          intro a ha
          simp only [List.mem_singleton] at ha
          subst ha
          simp only [Bool.and_eq_true, beq_iff_eq]
          exact fun hc => hmatch ⟨hc.1, hc.2⟩
        rw [hone]
        omega

/-- Closed instance discharging the hypotheses of
`C9_attendance_unique`: re-submitting against an existing Attendance
leaves the database unchanged and the pair still occurs at most once. -/
theorem C9_attendance_unique_witness :
    create_attendance sampleAttDB sampleWT = sampleAttDB ∧
    attendance_count (create_attendance sampleAttDB sampleWT) "E" 5 ≤ 1 :=
  ⟨(C9_attendance_unique sampleAttDB sampleWT).1 (by decide),
   (C9_attendance_unique sampleAttDB sampleWT).2 "E" 5 (by decide)⟩

/-- C8: cancellation deletes exactly the linked draft timesheets: the
result is a sub-collection of the database, every record that is not a
linked draft survives, no linked draft survives, and with zero linked
drafts the database is unchanged (a no-op that cannot fail). -/
theorem C8_cancel_draft_only (db : List Timesheet) (ft : FreelancerTime) :
    (∀ ts ∈ delete_draft_timesheets db ft, ts ∈ db) ∧
    (∀ ts ∈ db,
      ¬(ts.freelancer_time = some ft.name ∧ ts.docstatus = DocStatus.draft) →
      ts ∈ delete_draft_timesheets db ft) ∧
    (∀ ts ∈ delete_draft_timesheets db ft,
      ¬(ts.freelancer_time = some ft.name ∧ ts.docstatus = DocStatus.draft)) ∧
    ((∀ ts ∈ db,
        ¬(ts.freelancer_time = some ft.name ∧ ts.docstatus = DocStatus.draft)) →
      delete_draft_timesheets db ft = db) := by
  refine ⟨?_, ?_, ?_, ?_⟩
  · intro ts hts
    exact (List.mem_filter.mp hts).1
  · intro ts hts hnot
    refine List.mem_filter.mpr ⟨hts, ?_⟩
    simp only [Bool.not_eq_true', Bool.and_eq_false_iff, beq_eq_false_iff_ne,
      ne_eq]
    by_cases h1 : ts.freelancer_time = some ft.name
    · right
      exact fun h2 => hnot ⟨h1, h2⟩
    · left
      exact h1
  · intro ts hts
    have hp := (List.mem_filter.mp hts).2
    simp only [Bool.not_eq_true', Bool.and_eq_false_iff, beq_eq_false_iff_ne,
      ne_eq] at hp
    rintro ⟨h1, h2⟩
    rcases hp with hp | hp
    · exact hp h1
    · exact hp h2
  · intro hnone
    apply List.filter_eq_self.mpr
    intro ts hts
    have := hnone ts hts
    simp only [Bool.not_eq_true', Bool.and_eq_false_iff, beq_eq_false_iff_ne,
      ne_eq]
    by_cases h1 : ts.freelancer_time = some ft.name
    · right
      exact fun h2 => this ⟨h1, h2⟩
    · left
      exact h1

/-- Closed instance discharging the hypotheses of
`C8_cancel_draft_only`: with no linked draft the deletion is a no-op,
and on a mixed database the surviving linked submitted sheet is not a
linked draft. -/
theorem C8_cancel_draft_only_witness :
    delete_draft_timesheets sampleTSDBnodraft sampleFT = sampleTSDBnodraft ∧
    ¬(({ project := "P", hours := 2, billing_hours := 2, from_time := 0,
          working_time := none, freelancer_time := some "FT-2",
          docstatus := .submitted } : Timesheet).freelancer_time =
            some sampleFT.name ∧
      ({ project := "P", hours := 2, billing_hours := 2, from_time := 0,
          working_time := none, freelancer_time := some "FT-2",
          docstatus := .submitted } : Timesheet).docstatus =
            DocStatus.draft) :=
  ⟨(C8_cancel_draft_only sampleTSDBnodraft sampleFT).2.2.2 (by decide),
   (C8_cancel_draft_only sampleTSDB sampleFT).2.2.1 _ (by decide)⟩

/-- Helper: the two duration sums of `set_durations` together account
for exactly the truthy duration of every log. -/
theorem break_add_working (L : List TimeLog) :
    breakTimeOf L + workingTimeOf L = (L.map durationContribution).sum := by
  induction L with
  | nil => simp [breakTimeOf, workingTimeOf]
  | cons l ls ih =>
      simp only [breakTimeOf, workingTimeOf, List.map_cons, List.sum_cons]
        at ih ⊢
      rcases hb : l.is_break <;> (simp [hb]; omega)

/-- C10: a log missing `from_time` or `to_time` after chaining does not
have its duration recomputed (the whole log, pre-existing duration
included, is kept as-is); every truthy duration — whatever its times —
is accumulated into `break_time` or `working_time`, is checked by
validation when negative, and yields a timesheet when nonzero with a
project set. -/
theorem C10_missing_time_keeps_duration (wt : WorkingTime) :
    (∀ log : TimeLog, log.from_time = none ∨ log.to_time = none →
      set_duration_log log = log) ∧
    ((before_validate wt).break_time + (before_validate wt).working_time =
      ((before_validate wt).time_logs.map durationContribution).sum) ∧
    (∀ log ∈ (before_validate wt).time_logs, ∀ d : ℤ,
      log.duration = some d → d < 0 →
      validate (before_validate wt) =
        .error "Time logs must be continuous") ∧
    (∀ log ∈ (before_validate wt).time_logs, ∀ (d : ℤ) (p : String),
      log.duration = some d → d ≠ 0 → log.project = some p →
      wt_timesheet (before_validate wt) p d log.billable ∈
        create_timesheets (before_validate wt)) := by
  refine ⟨set_duration_log_missing, break_add_working _, ?_, ?_⟩
  · intro log hmem d hd hneg
    exact (validate_error_iff _).mpr ⟨log, hmem, d, hd, hneg⟩
  · intro log hmem d p hd hdne hp
    unfold create_timesheets
    refine List.mem_filterMap.mpr ⟨log, hmem, ?_⟩
    rw [hd, hp]
    simp [hdne]

/-- Closed instance discharging the hypotheses of
`C10_missing_time_keeps_duration`: the kept negative duration of the
gap log trips validation, and its kept nonzero duration would be
timesheet-eligible. -/
theorem C10_missing_time_keeps_duration_witness :
    validate (before_validate sampleWTgap) =
      .error "Time logs must be continuous" ∧
    wt_timesheet (before_validate sampleWTgap) "P" (-5)
        sampleGapLog0.billable ∈
      create_timesheets (before_validate sampleWTgap) :=
  ⟨(C10_missing_time_keeps_duration sampleWTgap).2.2.1 sampleGapLog0
      (by decide) (-5) (by decide) (by decide),
   (C10_missing_time_keeps_duration sampleWTgap).2.2.2 sampleGapLog0
      (by decide) (-5) "P" (by decide) (by decide) (by decide)⟩

/-- Helper: `WorkingTime.create_timesheets` builds exactly one sheet per
log passing the truthy-duration-and-project guard, in order. -/
theorem create_timesheets_eq (wt : WorkingTime) :
    create_timesheets wt =
      (wt.time_logs.filter fun log =>
        dtruthy log.duration && log.project.isSome).map (mk_wt_timesheet wt) := by
  unfold create_timesheets
  generalize wt.time_logs = L
  induction L with
  | nil => rfl
  | cons log rest ih =>
      rw [List.filterMap_cons, List.filter_cons]
      obtain ⟨ff, tt, d, b, p, pc⟩ := log
      rcases d with _ | dv <;> rcases p with _ | pv
      · simpa [dtruthy] using ih
      · simpa [dtruthy] using ih
      · simpa [dtruthy] using ih
      · by_cases hdv : dv = 0
        · subst hdv
          simpa [dtruthy] using ih
        · simp only [dtruthy, ih]
          simp [hdv, mk_wt_timesheet]

/-- Helper: `FreelancerTime.create_timesheets` builds exactly one sheet
per log passing the truthy-duration-and-project guard, in order. -/
theorem fl_create_timesheets_eq (ft : FreelancerTime) :
    fl_create_timesheets ft =
      (ft.time_logs.filter fun log =>
        dtruthy log.duration && log.project.isSome).map (mk_fl_timesheet ft) := by
  unfold fl_create_timesheets
  generalize ft.time_logs = L
  induction L with
  | nil => rfl
  | cons log rest ih =>
      rw [List.filterMap_cons, List.filter_cons]
      obtain ⟨dt, ff, d, p⟩ := log
      rcases d with _ | dv <;> rcases p with _ | pv
      · simpa [dtruthy] using ih
      · simpa [dtruthy] using ih
      · simpa [dtruthy] using ih
      · by_cases hdv : dv = 0
        · subst hdv
          simpa [dtruthy] using ih
        · simp only [dtruthy, ih]
          simp [hdv, mk_fl_timesheet]

/-- Helper: once validation has passed, the truthy-duration guard of
`create_timesheets` coincides with strict positivity. -/
theorem filter_pos_of_validate (wt : WorkingTime)
    (hok : validate wt = .ok ()) :
    (wt.time_logs.filter fun log =>
      dtruthy log.duration && log.project.isSome) =
    (wt.time_logs.filter fun log =>
      decide (0 < log.duration.getD 0) && log.project.isSome) := by
  apply List.filter_congr
  intro log hmem
  unfold validate at hok
  split at hok
  next h => cases hok
  next h =>
    simp only [List.any_eq_true, Bool.and_eq_true, decide_eq_true_eq,
      not_exists] at h
    push_neg at h
    have hlog := h log hmem
    rcases hd : log.duration with _ | v
    · simp [dtruthy, hd]
    · rw [hd] at hlog
      simp only [dtruthy, Option.getD_some] at hlog ⊢
      by_cases hv : v = 0
      · subst hv
        simp
      · have hge : (0 : ℤ) ≤ v := hlog (by simpa using hv)
        have hgt : (0 : ℤ) < v := by omega
        simp [hv, hgt]

/-- C6 counterexample: a FreelancerTime log with the strictly negative
(hence non-positive) duration `-300` and a project set still yields one
Timesheet, because FreelancerTime has no validation hook and the guard
only tests truthiness. -/
theorem C6_counterexample :
    (sampleFTneg.time_logs.map FreelancerLog.duration = [some (-300)]) ∧
    ((-300 : ℤ) < 0) ∧
    (fl_create_timesheets sampleFTneg).length = 1 :=
  ⟨rfl, by decide, by decide⟩

/-- C6 (amended): on WorkingTime submit (whose validation pass has
rejected negative durations), exactly one Timesheet is appended per log
with strictly positive duration and a project set; on FreelancerTime
submit, exactly one Timesheet is appended per log with nonzero — and
possibly negative — duration and a project set. -/
theorem C6_timesheet_per_log (db db' : DB) (wt : WorkingTime)
    (ft : FreelancerTime) (hsub : submit_working_time db wt = .ok db') :
    db'.timesheets = db.timesheets ++
      (((before_validate wt).time_logs.filter fun log =>
          decide (0 < log.duration.getD 0) && log.project.isSome).map
        (mk_wt_timesheet (before_validate wt))) ∧
    (submit_freelancer_time db ft).timesheets = db.timesheets ++
      ((ft.time_logs.filter fun log =>
          dtruthy log.duration && log.project.isSome).map
        (mk_fl_timesheet ft)) := by
  constructor
  · unfold submit_working_time at hsub
    rcases hval : validate (before_validate wt) with e | u
    · rw [hval] at hsub
      cases hsub
    · cases u
      rw [hval] at hsub
      cases hsub
      show db.timesheets ++ create_timesheets (before_validate wt) = _
      rw [create_timesheets_eq, filter_pos_of_validate _ hval]
  · show db.timesheets ++ fl_create_timesheets ft = _
    rw [fl_create_timesheets_eq]

/-- Closed instance discharging the hypothesis of
`C6_timesheet_per_log` on a successful submit. -/
theorem C6_timesheet_per_log_witness :
    sampleDBafter.timesheets =
      ({ attendances := [], timesheets := [] } : DB).timesheets ++
      (((before_validate sampleWTgood).time_logs.filter fun log =>
          decide (0 < log.duration.getD 0) && log.project.isSome).map
        (mk_wt_timesheet (before_validate sampleWTgood))) ∧
    (submit_freelancer_time { attendances := [], timesheets := [] }
        sampleFTneg).timesheets =
      ({ attendances := [], timesheets := [] } : DB).timesheets ++
      ((sampleFTneg.time_logs.filter fun log =>
          dtruthy log.duration && log.project.isSome).map
        (mk_fl_timesheet sampleFTneg)) :=
  C6_timesheet_per_log { attendances := [], timesheets := [] } sampleDBafter
    sampleWTgood sampleFTneg rfl

/-- C7 counterexample: the log of `sampleFT` has `from_time = some 555`,
yet the Timesheet created from it carries `from_time = 777`, the log's
`date` — not the log's own `from_time`. -/
theorem C7_counterexample :
    (sampleFT.time_logs.map FreelancerLog.from_time = [some 555]) ∧
    ((fl_create_timesheets sampleFT).map Timesheet.from_time = [777]) ∧
    (777 : ℕ) ≠ 555 :=
  ⟨rfl, by decide, by decide⟩

/-- C7 (amended): every Timesheet created by FreelancerTime carries as
its `from_time` the originating log's own `date` field, while every
Timesheet created by WorkingTime carries the parent day's date — the
intentional asymmetry is at the log level versus the parent level. -/
theorem C7_from_time_asymmetry (ft : FreelancerTime) (wt : WorkingTime) :
    (∀ ts ∈ fl_create_timesheets ft, ∃ log ∈ ft.time_logs,
      ts.from_time = log.date) ∧
    ∀ ts ∈ create_timesheets wt, ts.from_time = wt.date := by
  constructor
  · intro ts hts
    simp only [fl_create_timesheets, List.mem_filterMap] at hts
    obtain ⟨log, hmem, hlog⟩ := hts
    refine ⟨log, hmem, ?_⟩
    rcases hd : log.duration with _ | dv <;>
      rcases hp : log.project with _ | pv <;> simp [hd, hp] at hlog
    obtain ⟨-, hts'⟩ := hlog
    subst hts'
    rfl
  · intro ts hts
    simp only [create_timesheets, List.mem_filterMap] at hts
    obtain ⟨log, hmem, hlog⟩ := hts
    rcases hd : log.duration with _ | dv <;>
      rcases hp : log.project with _ | pv <;> simp [hd, hp] at hlog
    obtain ⟨-, hts'⟩ := hlog
    subst hts'
    rfl

/-- Closed instance discharging the hypotheses of
`C7_from_time_asymmetry` on concrete timesheets. -/
theorem C7_from_time_asymmetry_witness :
    (∃ log ∈ sampleFT.time_logs,
      (fl_timesheet sampleFT sampleFTlog 300).from_time = log.date) ∧
    (wt_timesheet (before_validate sampleWTgood) "P" 600 100).from_time =
      (before_validate sampleWTgood).date :=
  ⟨(C7_from_time_asymmetry sampleFT (before_validate sampleWTgood)).1
      (fl_timesheet sampleFT sampleFTlog 300)
      (by
        have h : fl_create_timesheets sampleFT =
            [fl_timesheet sampleFT sampleFTlog 300] := rfl
        rw [h]
        exact List.mem_singleton.mpr rfl),
   (C7_from_time_asymmetry sampleFT (before_validate sampleWTgood)).2
      (wt_timesheet (before_validate sampleWTgood) "P" 600 100)
      (by
        have h : create_timesheets (before_validate sampleWTgood) =
            [wt_timesheet (before_validate sampleWTgood) "P" 600 100] := rfl
        rw [h]
        exact List.mem_singleton.mpr rfl)⟩

end WorkingTimeApp
